import Mathlib

/-!
Verification development for the image-scraper repository.

The Python sources (`image_scraper.py` and the Streamlit front end) are
shallowly embedded below.  Pure helpers of the CPython standard library that
the code calls (`urllib.parse.urlsplit` / `urlunsplit` / `urljoin` /
`urlparse(...).netloc`, `str.split`, `str.strip`, `os.path.splitext`) are
embedded as executable Lean functions following the CPython algorithms.
External collaborators (the network, the SHA-1 digest, the `mimetypes`
table, the Pillow decoder, BeautifulSoup's parser) are modelled as explicit
inputs: a per-candidate `Outcome`, digest/extension-guess functions carried
in the configuration, and a `Markup` value holding the parsed element list
together with the raw markup text.
-/

namespace ImageScraper

/-- Python `str` truthiness-relevant whitespace test used by `str.strip()`
(restricted to the ASCII whitespace characters that occur in markup). -/
def isPySpace (c : Char) : Bool :=
  c = ' ' || c = '\t' || c = '\n' || c = '\r' || c = '\x0b' || c = '\x0c'

/-- Strip `isPySpace` characters from both ends of a character list. -/
def stripList (l : List Char) : List Char :=
  ((l.dropWhile isPySpace).reverse.dropWhile isPySpace).reverse

/-- Embedding of Python `s.strip()` (ASCII whitespace). -/
def pyStrip (s : String) : String := ⟨stripList s.data⟩

/-- Strip every leading and trailing character that belongs to `cs`
from both ends, as Python `s.strip(chars)` does. -/
def stripCharsList (cs : List Char) (l : List Char) : List Char :=
  ((l.dropWhile (cs.contains ·)).reverse.dropWhile (cs.contains ·)).reverse

/-- ASCII lower-casing of one character, as Python `str.lower` acts on ASCII. -/
def lowerChar (c : Char) : Char :=
  if 'A' ≤ c && c ≤ 'Z' then Char.ofNat (c.toNat + 32) else c

/-- Embedding of Python `s.lower()` for ASCII text. -/
def pyLower (s : String) : String := ⟨s.data.map lowerChar⟩

/-- Embedding of Python `s.startswith(p)`. -/
def pyStartsWith (s p : String) : Bool := p.data.isPrefixOf s.data

/-- Embedding of Python `s.endswith(p)`. -/
def pyEndsWith (s p : String) : Bool := p.data.isSuffixOf s.data

/-- Worker for `pySplit`: split a character list at every occurrence of
`sep`, keeping empty pieces, as Python `s.split(sep)` does. -/
def pySplitAux (sep : Char) : List Char → List Char → List (List Char)
  | [], cur => [cur.reverse]
  | c :: rest, cur =>
    if c = sep then cur.reverse :: pySplitAux sep rest []
    else pySplitAux sep rest (c :: cur)

/-- Embedding of Python `s.split(sep)` for a one-character separator
(empty pieces are kept; the result is never empty). -/
def pySplit (sep : Char) (s : String) : List String :=
  (pySplitAux sep s.data []).map (⟨·⟩)

/-- First piece of `pySplit` — Python `s.split(sep)[0]`. -/
def pySplitHead (sep : Char) (s : String) : String :=
  match pySplit sep s with
  | [] => ""
  | p :: _ => p

/-- Split at the first occurrence of `c` — Python `s.split(c, 1)`; the
second component is `[]` when `c` does not occur. -/
def splitFirst (c : Char) (l : List Char) : List Char × List Char :=
  let pre := l.takeWhile (· ≠ c)
  if pre.length < l.length then (pre, l.drop (pre.length + 1)) else (pre, [])

/-! URL parsing, following CPython `urllib/parse.py`. -/

/-- The five components produced by `urllib.parse.urlsplit`. -/
structure UrlParts where
  scheme : String
  netloc : String
  path : String
  query : String
  fragment : String
  deriving DecidableEq

/-- Characters allowed in a URL scheme after the leading letter
(CPython `scheme_chars`). -/
def isSchemeChar (c : Char) : Bool :=
  c.isAlpha || c.isDigit || c = '+' || c = '-' || c = '.'

/-- Split off a leading `scheme:` if the text before the first colon is a
valid scheme, lower-casing it; otherwise use the supplied default scheme.
Mirrors the scheme handling inside CPython `urlsplit`. -/
def schemeSplit (l : List Char) (dflt : List Char) : List Char × List Char :=
  let pre := l.takeWhile (· ≠ ':')
  if pre.length < l.length ∧ pre ≠ [] ∧
      (match pre with | c :: _ => c.isAlpha | [] => false) = true ∧
      pre.all isSchemeChar then
    (pre.map lowerChar, l.drop (pre.length + 1))
  else (dflt, l)

/-- Take the network-location part: everything up to the first of
`/`, `?`, `#` (CPython `_splitnetloc`). -/
def splitNetloc (l : List Char) : List Char × List Char :=
  (l.takeWhile (fun c => !(c = '/' || c = '?' || c = '#')),
   l.dropWhile (fun c => !(c = '/' || c = '?' || c = '#')))

/-- Embedding of `urllib.parse.urlsplit(url, scheme=dflt)` with
`allow_fragments=True`. -/
def urlsplit (s : String) (dflt : String) : UrlParts :=
  let (sch, rest) := schemeSplit s.data dflt.data
  let (netloc, rest2) :=
    if ['/', '/'].isPrefixOf rest then splitNetloc (rest.drop 2)
    else ([], rest)
  let (beforeFrag, frag) := splitFirst '#' rest2
  let (path, query) := splitFirst '?' beforeFrag
  ⟨⟨sch⟩, ⟨netloc⟩, ⟨path⟩, ⟨query⟩, ⟨frag⟩⟩

/-- Embedding of `urllib.parse.urlunsplit`. -/
def urlunsplit (u : UrlParts) : String :=
  let url0 := u.path
  let url1 :=
    if u.netloc ≠ "" ∨ (url0 ≠ "" ∧ pyStartsWith url0 "//") then
      "//" ++ u.netloc ++
        (if url0 ≠ "" ∧ ¬ pyStartsWith url0 "/" then "/" ++ url0 else url0)
    else url0
  let url2 := if u.scheme ≠ "" then u.scheme ++ ":" ++ url1 else url1
  let url3 := if u.query ≠ "" then url2 ++ "?" ++ u.query else url2
  if u.fragment ≠ "" then url3 ++ "#" ++ u.fragment else url3

/-- CPython `urllib.parse.uses_relative`. -/
def usesRelative : List String :=
  ["", "ftp", "http", "gopher", "nntp", "imap", "wais", "file", "https",
   "shttp", "mms", "prospero", "rtsp", "rtspu", "sftp", "svn", "svn+ssh",
   "ws", "wss"]

/-- CPython `urllib.parse.uses_netloc`. -/
def usesNetloc : List String :=
  ["", "ftp", "http", "gopher", "nntp", "telnet", "imap", "wais", "file",
   "mms", "https", "shttp", "snews", "prospero", "rtsp", "rtspu", "rsync",
   "svn", "svn+ssh", "sftp", "nfs", "git", "git+ssh", "ws", "wss",
   "itms-services"]

/-- Keep the first and last segment but drop empty middle segments
(CPython `segments[1:-1] = filter(None, segments[1:-1])`). -/
def filterMiddleTail : List String → List String
  | [] => []
  | [a] => [a]
  | a :: rest => if a = "" then filterMiddleTail rest else a :: filterMiddleTail rest

/-- Apply `filterMiddleTail` to everything after the first segment. -/
def filterMiddle : List String → List String
  | [] => []
  | a :: rest => a :: filterMiddleTail rest

/-- Resolve `.` and `..` segments with a stack, as the segment loop of
CPython `urljoin` does (`..` on an empty stack is ignored). -/
def resolveSegs (segs : List String) : List String :=
  (segs.foldl
    (fun acc seg =>
      if seg = ".." then acc.tail
      else if seg = "." then acc
      else seg :: acc) []).reverse

/-- Join path segments back with `/` (Python `'/'.join`). -/
def joinSlash : List String → String
  | [] => ""
  | [s] => s
  | s :: rest => s ++ "/" ++ joinSlash rest

/-- Embedding of `urllib.parse.urljoin(base, url)` following the CPython
algorithm (using the five-component split; the `params` component only
exists for `urlparse` and does not affect these inputs). -/
def urljoin (base url : String) : String :=
  if base = "" then url
  else if url = "" then base
  else
    let b := urlsplit base ""
    let r := urlsplit url b.scheme
    if r.scheme ≠ b.scheme ∨ ¬ usesRelative.contains r.scheme then url
    else if usesNetloc.contains r.scheme ∧ r.netloc ≠ "" then
      urlunsplit ⟨r.scheme, r.netloc, r.path, r.query, r.fragment⟩
    else
      let netloc := if usesNetloc.contains r.scheme then b.netloc else r.netloc
      if r.path = "" then
        let query := if r.query = "" then b.query else r.query
        urlunsplit ⟨r.scheme, netloc, b.path, query, r.fragment⟩
      else
        let baseParts0 := pySplit '/' b.path
        let baseParts :=
          if baseParts0.getLast? = some "" then baseParts0 else baseParts0.dropLast
        let segments :=
          if pyStartsWith r.path "/" then pySplit '/' r.path
          else filterMiddle (baseParts ++ pySplit '/' r.path)
        let resolved := resolveSegs segments
        let resolved2 :=
          if segments.getLast? = some "." ∨ segments.getLast? = some ".." then
            resolved ++ [""]
          else resolved
        let joined := joinSlash resolved2
        urlunsplit ⟨r.scheme, netloc, if joined = "" then "/" else joined,
                    r.query, r.fragment⟩

/-- The `netloc` component of `urllib.parse.urlparse(url)` (identical to
the `urlsplit` netloc). -/
def urlparseNetloc (u : String) : String := (urlsplit u "").netloc

/-- The `path` component of `urllib.parse.urlparse(url)`. -/
def urlparsePath (u : String) : String := (urlsplit u "").path

/-- Embedding of `same_domain` from `image_scraper.py`:
`b == t or t.endswith("." + b)` on the two netlocs. -/
def same_domain (base_url target_url : String) : Bool :=
  let b := urlparseNetloc base_url
  let t := urlparseNetloc target_url
  (b == t) || pyEndsWith t ("." ++ b)

/-! Candidate extraction (`extract_image_urls` in `image_scraper.py`).

BeautifulSoup is an external collaborator, so a page is modelled as the
parsed element list (document order, with lower-cased tag and attribute
names, as the parser produces) together with the raw markup text that the
inline-style regular expression scans. -/

/-- One parsed markup element: tag name and attribute list. -/
structure Element where
  tag : String
  attrs : List (String × String)
  deriving DecidableEq

/-- BeautifulSoup `tag.get(name)`: the value of the first attribute with
the given name, or `none`. -/
def Element.get (e : Element) (name : String) : Option String :=
  (e.attrs.find? (fun p => p.1 = name)).map (·.2)

/-- A fetched page as the extractor sees it: the parsed elements and the
raw markup text. -/
structure Markup where
  elements : List Element
  raw : String
  deriving DecidableEq

/-- Python truthiness of `tag.get(attr)`: a present, non-empty string. -/
def truthy : Option String → Bool
  | some s => s ≠ ""
  | none => false

/-- The lazy-loading attribute names scanned for every `img` element. -/
def imgAttrNames : List String :=
  ["src", "data-src", "data-original", "data-lazy", "data-srcset",
   "data-original-src"]

/-- The reference strings one `img` element contributes, in code order:
the populated attributes of `imgAttrNames`, then the comma-separated
entries of `srcset` (or, failing that, `data-srcset`), each stripped and
cut at the first space, skipping empty entries. -/
def imgCandidates (img : Element) : List String :=
  let attrCands := imgAttrNames.filterMap (fun a =>
    match img.get a with
    | some v => if v ≠ "" then some v else none
    | none => none)
  let srcset :=
    let s1 := img.get "srcset"
    if truthy s1 then s1 else img.get "data-srcset"
  let srcsetCands :=
    match srcset with
    | some s =>
      if s ≠ "" then
        (pySplit ',' s).filterMap (fun part =>
          let u := pyStrip (pySplitHead ' ' (pyStrip part))
          if u ≠ "" then some u else none)
      else []
    | none => []
  attrCands ++ srcsetCands

/-- Resolved references contributed by the `img` elements of an element
list, in document order (`for img in soup.find_all("img")`). -/
def imgRefs (base : String) : List Element → List String
  | [] => []
  | e :: rest =>
    (if e.tag == "img" then (imgCandidates e).map (urljoin base) else [])
      ++ imgRefs base rest

/-- BeautifulSoup `soup.find("meta", attrs={key: val})`: the first `meta`
element whose `key` attribute equals `val`. -/
def findMetaBy (m : Markup) (key val : String) : Option Element :=
  (m.elements.filter (fun e => e.tag == "meta")).find?
    (fun e => e.get key = some val)

/-- The Open Graph / Twitter metadata image references, resolved, in the
order of the property list in the source. -/
def metaRefs (m : Markup) (base : String) : List String :=
  ["og:image", "twitter:image", "twitter:image:src"].filterMap (fun prop =>
    let tag :=
      match findMetaBy m "property" prop with
      | some t => some t
      | none => findMetaBy m "name" prop
    match tag with
    | some t =>
      match t.get "content" with
      | some c => if c ≠ "" then some (urljoin base (pyStrip c)) else none
      | none => none
    | none => none)

/-! The inline-style scan.  The source compiles the raw-string pattern
`r'url\\(([^)]+)\\)'`, i.e. the regex `url` `\\` `(` `(` `[^)]+` `)` `\\` `)`:
after a case-insensitive `url` it requires a literal backslash, then an
outer group containing an inner group of one or more non-`)` characters
followed by another literal backslash.  It therefore only matches text of
the shape `url\…\` — a plain `url(...)` reference is never matched.
Because the pattern has two groups, `re.findall` returns 2-tuples, and the
subsequent `su.strip('\'"')` on a tuple raises `AttributeError`, so
`extract_image_urls` crashes whenever the pattern matches at all. -/

/-- Index of the last occurrence of `c` in `l`, if any. -/
def lastIdxOf (c : Char) (l : List Char) : Option Nat :=
  (l.reverse.findIdx? (· = c)).map (fun j => l.length - 1 - j)

/-- Attempt the compiled style pattern at the head of `l`.  On success,
return the inner-group text and the remainder after the match. -/
def tryStyleMatch (l : List Char) : Option (String × List Char) :=
  match l with
  | c0 :: c1 :: c2 :: '\\' :: rest =>
    if lowerChar c0 = 'u' ∧ lowerChar c1 = 'r' ∧ lowerChar c2 = 'l' then
      let s := rest.takeWhile (· ≠ ')')
      match lastIdxOf '\\' s with
      | some k => if 1 ≤ k then some (⟨s.take k⟩, rest.drop (k + 1)) else none
      | none => none
    else none
  | _ => none

/-- Fuelled scan of the raw text for the compiled style pattern,
advancing one character on failure and past the match on success, as
`re.findall` does. -/
def styleMatchesAux : Nat → List Char → List String
  | 0, _ => []
  | _ + 1, [] => []
  | fuel + 1, c :: rest =>
    match tryStyleMatch (c :: rest) with
    | some (g, rem) => g :: styleMatchesAux fuel rem
    | none => styleMatchesAux fuel rest

/-- All matches of the compiled style pattern in the raw markup text. -/
def styleMatches (raw : String) : List String :=
  styleMatchesAux (raw.data.length + 1) raw.data

/-- True when `extract_image_urls` raises `AttributeError`: the two-group
`findall` produced tuples and `su.strip('\'"')` was called on a tuple. -/
def extractCrashes (m : Markup) : Bool :=
  !(styleMatches m.raw).isEmpty

/-- Every resolved URL `extract_image_urls` inserts into its `urls` set,
in discovery order: `img` attribute and srcset references element by
element, then the metadata references.  (On any run that does not crash,
the inline-style branch contributes nothing, since it only executes its
`urls.add` after the tuple `.strip` that raises.) -/
def discoveredUrls (m : Markup) (base : String) : List String :=
  imgRefs base m.elements ++ metaRefs m base

/-- Order-preserving first-seen deduplication (what `dict.fromkeys` gives
when applied to a sequence). -/
def dedupFirstAux : List String → List String → List String
  | [], _ => []
  | x :: rest, seen =>
    if seen.contains x then dedupFirstAux rest seen
    else x :: dedupFirstAux rest (x :: seen)

/-- First-seen deduplication of a list. -/
def dedupFirst (l : List String) : List String := dedupFirstAux l []

/-- Holds when `out` enumerates exactly the distinct members of `pool`, in some
order: this is the set of lists a Python `set` of the elements of `pool`
can enumerate. -/
def isEnumOf (out pool : List String) : Bool :=
  decide out.Nodup && out.all (fun u => decide (u ∈ pool)) &&
    pool.all (fun u => decide (u ∈ out))

/-- Result predicate for `extract_image_urls m base`: the call returns
normally (the style pattern found no match) and the returned list is an
enumeration of the discovered-URL set.  The enumeration order is the
iteration order of the Python `set` named `urls`, which is hash-based and
not determined by discovery order; the final
`list(dict.fromkeys(filtered))` only removes duplicates, of which a set
enumeration has none. -/
def extract_image_urls_result (m : Markup) (base : String)
    (out : List String) : Bool :=
  !(extractCrashes m) && isEnumOf out (discoveredUrls m base)

/-! The download loop (`download_images` in `image_scraper.py`).

The network, the Pillow decoder and the filesystem are collaborators, so
each candidate is paired with an `Outcome`: either the fetch raises, or it
yields a status code, the `Content-Type` header value, and the result of
attempting to decode the body (`none` = decode failure).  The loop is
embedded as a trace of observable events, from which the saved count, the
saved filenames, the fetches attempted and the politeness sleeps can all
be read off. -/

/-- Embedding of `content_type_is_image`: the lower-cased `Content-Type`
header value starts with `image/`. -/
def content_type_is_image (ctype : String) : Bool :=
  pyStartsWith (pyLower ctype) "image/"

/-- The suffix after the last `/`, or the whole list (helper for
`os.path.splitext`). -/
def afterLastChar (c : Char) (l : List Char) : List Char :=
  (l.reverse.takeWhile (· ≠ c)).reverse

/-- Embedding of `os.path.splitext(p)[1]` for POSIX paths: the extension
starts at the last dot of the basename, unless every basename character
before that dot is itself a dot. -/
def splitextExt (p : String) : String :=
  let base := afterLastChar '/' p.data
  let revBase := base.reverse
  let afterDot := revBase.takeWhile (· ≠ '.')
  if afterDot.length < revBase.length then
    let beforeDot := (revBase.drop (afterDot.length + 1)).reverse
    if beforeDot.any (· ≠ '.') then ⟨'.' :: afterDot.reverse⟩ else ""
  else ""

/-- Embedding of `infer_extension`, with the `mimetypes.guess_extension`
table passed in as the function `guess`: prefer the URL path's own
lower-cased suffix, then the mapped MIME type, then `.jpg`. -/
def infer_extension (guess : String → Option String) (ctype url : String) :
    String :=
  let ext := pyLower (splitextExt (urlparsePath url))
  if ext ≠ "" then ext
  else
    let ct := pyLower ctype
    if ct ≠ "" then
      match guess (pyStrip (pySplitHead ';' ct)) with
      | some e => e
      | none => ".jpg"
    else ".jpg"

/-- Decimal digit characters. -/
def digitChar10 (d : Nat) : Char :=
  if d = 0 then '0' else if d = 1 then '1' else if d = 2 then '2'
  else if d = 3 then '3' else if d = 4 then '4' else if d = 5 then '5'
  else if d = 6 then '6' else if d = 7 then '7' else if d = 8 then '8'
  else if d = 9 then '9' else '*'

/-- Fuelled little-endian decimal digits of a natural number. -/
def natToDigitsAux : Nat → Nat → List Char
  | 0, _ => []
  | _ + 1, 0 => []
  | fuel + 1, n + 1 =>
    digitChar10 ((n + 1) % 10) :: natToDigitsAux fuel ((n + 1) / 10)

/-- Most-significant-first decimal digit characters of `n` (Python
`"%d" % n` for a non-negative value). -/
def natToDecList (n : Nat) : List Char :=
  if n = 0 then ['0'] else (natToDigitsAux n n).reverse

/-- Character list of Python `f"{n:04d}"`: the decimal digits left-padded
with zeros to width 4. -/
def pyFmt04List (n : Nat) : List Char :=
  List.replicate (4 - (natToDecList n).length) '0' ++ natToDecList n

/-- Python `f"{n:04d}"` as a string. -/
def pyFmt04 (n : Nat) : String := ⟨pyFmt04List n⟩

/-- Embedding of `hash_to_name(url, idx, ext)` =
`f"{idx:04d}_{h}{ext}"`, with the first-12-hex-characters SHA-1 digest
passed in as the function `h12`. -/
def hash_to_name (h12 : String → String) (url : String) (idx : Nat)
    (ext : String) : String :=
  pyFmt04 idx ++ "_" ++ h12 url ++ ext

/-- What one fetch of a candidate can come back with: an exception from
the HTTP client, or a response carrying the status code, the
`Content-Type` header value, and the pixel size Pillow can decode from
the body (`none` when the body does not decode). -/
inductive Outcome where
  | raise : Outcome
  | resp (status : Nat) (ctype : String) (dims : Option (Nat × Nat)) : Outcome
  deriving DecidableEq

/-- The configuration `download_images` receives, together with the
runtime collaborators: `pilAvailable` is the module-level `PIL_AVAILABLE`
flag, `h12` the SHA-1 digest prefix, `guessExt` the `mimetypes` table.
The delay and timeout magnitudes are irrelevant to the claims; the act of
sleeping is an event of the trace. -/
structure Config where
  baseUrl : String
  maxImages : Nat
  onlySameDomain : Bool
  minW : Nat
  minH : Nat
  pilAvailable : Bool
  h12 : String → String
  guessExt : String → Option String

/-- Observable events of one run of the download loop, in order. -/
inductive Event where
  | skipDomain (url : String)
  | fetchTry (url : String)
  | skipStatus (url : String) (status : Nat)
  | skipCtype (url : String)
  | skipSize (url : String)
  | saveFile (url : String) (filename : String)
  | errorSkip (url : String)
  | sleep : Event
  deriving DecidableEq

/-- The dimension filter of the loop body: it is active only when Pillow
is available and at least one minimum is configured nonzero, and it
rejects when a decoded dimension falls below its configured nonzero
minimum; a body Pillow cannot decode (`dims = none`) is never rejected
(the `except: pass` fail-open of the source). -/
def dimRejects (cfg : Config) (dims : Option (Nat × Nat)) : Bool :=
  if cfg.pilAvailable ∧ (cfg.minW ≠ 0 ∨ cfg.minH ≠ 0) then
    match dims with
    | some wh =>
      decide ((cfg.minW ≠ 0 ∧ wh.1 < cfg.minW) ∨
              (cfg.minH ≠ 0 ∧ wh.2 < cfg.minH))
    | none => false
  else false

/-- The body of the `for` loop of `download_images` on one candidate that
passed the cap check and the domain check, with the current saved count:
the events it emits and the new saved count.  Mirrors the source line by
line: status `>= 400` is skipped with no sleep; a non-image
`Content-Type` is skipped (no sleep) only when Pillow is unavailable; a
dimension rejection sleeps; a save writes `hash_to_name(url, count+1,
ext)`, increments the count and sleeps; an exception sleeps and
continues. -/
def step (cfg : Config) (url : String) (o : Outcome) (count : Nat) :
    List Event × Nat :=
  match o with
  | .raise => ([.fetchTry url, .errorSkip url, .sleep], count)
  | .resp status ctype dims =>
    if 400 ≤ status then ([.fetchTry url, .skipStatus url status], count)
    else if ¬ content_type_is_image ctype ∧ ¬ cfg.pilAvailable then
      ([.fetchTry url, .skipCtype url], count)
    else if dimRejects cfg dims then
      ([.fetchTry url, .skipSize url, .sleep], count)
    else
      ([.fetchTry url,
        .saveFile url
          (hash_to_name cfg.h12 url (count + 1)
            (infer_extension cfg.guessExt ctype url)),
        .sleep], count + 1)

/-- The candidate iteration of `download_images`: break as soon as the
saved count has reached the maximum; skip (without fetching and without
sleeping) candidates that fail the opt-in same-domain check; otherwise
run `step`. -/
def downloadLoop (cfg : Config) : List (String × Outcome) → Nat → List Event
  | [], _ => []
  | (url, o) :: rest, count =>
    if cfg.maxImages ≤ count then []
    else if cfg.onlySameDomain && !(same_domain cfg.baseUrl url) then
      .skipDomain url :: downloadLoop cfg rest count
    else
      (step cfg url o count).1 ++
        downloadLoop cfg rest (step cfg url o count).2

/-- The event trace of `download_images` started with a saved count of 0. -/
def download_images (cfg : Config) (inputs : List (String × Outcome)) :
    List Event :=
  downloadLoop cfg inputs 0

/-- The filenames written by the trace, in order. -/
def savedFiles (t : List Event) : List String :=
  t.filterMap fun e => match e with | .saveFile _ fn => some fn | _ => none

/-- The value `download_images` returns: the number of saves. -/
def countSaves (t : List Event) : Nat := (savedFiles t).length

/-- Whether the trace contains a save. -/
def containsSave (t : List Event) : Bool := !(savedFiles t).isEmpty

/-- Check, walking a trace with a running saved count, that every fetch
happens while the saved count is still below `m`. -/
def capRespected (m : Nat) : List Event → Nat → Bool
  | [], _ => true
  | e :: rest, c =>
    match e with
    | .fetchTry _ => decide (c < m) && capRespected m rest c
    | .saveFile _ _ => capRespected m rest (c + 1)
    | _ => capRespected m rest c

/-- Parse the numeric value of the digit characters. -/
def digitsVal (l : List Char) : Nat :=
  l.foldl (fun a c => 10 * a + (c.toNat - 48)) 0

/-- The sequence index encoded in a saved filename: the value of the
characters before the first underscore. -/
def fileIdx (fn : String) : Nat :=
  digitsVal (fn.data.takeWhile (· != '_'))

/-! The surrounding run logic: `main` in `image_scraper.py` and the start
handler of the Streamlit front end.  Page retrieval and the robots gate
are collaborators (`page = none` models a fetch failure); the extraction
result is passed in as a list for which `extract_image_urls_result`
holds, since the set enumeration order is not determined by the input. -/

/-- How a CLI run of `main` ends. -/
inductive CliResult where
  | robotsBlocked : CliResult
  | fetchFailed : CliResult
  | completed (found : Nat) (saved : Nat) : CliResult
  deriving DecidableEq

/-- Embedding of `main`: robots gate, page fetch (fatal on failure),
extraction, then `download_images` over every candidate and a normal
`Done. Saved N image(s)` completion — there is no emptiness check on the
candidate list. -/
def mainModel (cfg : Config) (robotsOk noRobots : Bool)
    (page : Option Markup) (out : List String) (env : String → Outcome) :
    CliResult :=
  if !noRobots && !robotsOk then .robotsBlocked
  else
    match page with
    | none => .fetchFailed
    | some _ =>
      .completed out.length
        (countSaves (download_images cfg (out.map (fun u => (u, env u)))))

/-- How the Streamlit start handler ends, modelled up to the point where
its inline download loop would begin. -/
inductive AppResult where
  | stoppedEmptyUrl : AppResult
  | stoppedRobots : AppResult
  | errored : AppResult
  | stoppedNoCandidates : AppResult
  | startedDownload (candidates : List String) : AppResult
  deriving DecidableEq

/-- Embedding of the front end's start handler: stop on an empty URL
field, stop when robots.txt denies, error out if the page fetch raises,
and stop with a warning — before any download — when extraction found no
candidates; otherwise enter the download loop. -/
def appStartModel (url : String) (robotsOk noRobots : Bool)
    (page : Option Markup) (out : List String) : AppResult :=
  if url = "" then .stoppedEmptyUrl
  else if !noRobots && !robotsOk then .stoppedRobots
  else
    match page with
    | none => .errored
    | some _ =>
      if out.length = 0 then .stoppedNoCandidates
      else .startedDownload out

/-! Concrete instances used to settle the claims. -/

/-- Little-endian numeric value of a digit-character list (proof helper). -/
def valLE : List Char → Nat
  | [] => 0
  | c :: rest => (c.toNat - 48) + 10 * valLE rest

/-- The base URL of the specification's §8 end-to-end scenario. -/
def base8 : String := "https://site.test/page"

/-- The §8 end-to-end markup: one `img` with `src`, one `img` with a
two-entry `srcset`, one `og:image` metadata tag. -/
def m8 : Markup :=
  ⟨[⟨"img", [("src", "/a.png")]⟩,
    ⟨"img", [("srcset", "/b.png 1x, /c.png 2x")]⟩,
    ⟨"meta", [("property", "og:image"), ("content", "/d.png")]⟩],
   "<html></html>"⟩

/-- The four §8 candidates in discovery order. -/
def disc8 : List String :=
  ["https://site.test/a.png", "https://site.test/b.png",
   "https://site.test/c.png", "https://site.test/d.png"]

/-- Markup whose raw text holds a plain inline-style `url(...)` reference
and nothing else. -/
def m6 : Markup :=
  ⟨[], "<div style=\"background-image: url(https://a.test/bg.png)\"></div>"⟩

/-- A data-URI image reference. -/
def dataURI : String := "data:image/png;base64,AAAA"

/-- Markup with a single `img` whose `src` is a data URI. -/
def m7 : Markup := ⟨[⟨"img", [("src", dataURI)]⟩], ""⟩

/-- Markup with no image references at all. -/
def mEmpty : Markup := ⟨[], "<html><body>plain text</body></html>"⟩

/-- Configuration with a cap of 3 and no filters (Pillow absent). -/
def cfgC2 : Config :=
  ⟨"https://site.test/page", 3, false, 0, 0, false,
   fun _ => "aaaaaaaaaaaa", fun _ => none⟩

/-- Ten same-page candidates that all come back as downloadable images. -/
def inputsC2 : List (String × Outcome) :=
  (List.range 10).map (fun i =>
    ("https://site.test/" ++ pyFmt04 i ++ ".png",
     Outcome.resp 200 "image/png" none))

/-- Configuration with Pillow available and no dimension thresholds. -/
def cfgPil : Config :=
  ⟨"https://site.test/page", 500, false, 0, 0, true,
   fun _ => "aaaaaaaaaaaa", fun _ => none⟩

/-- Configuration with Pillow unavailable and no dimension thresholds. -/
def cfgNoPil : Config :=
  ⟨"https://site.test/page", 500, false, 0, 0, false,
   fun _ => "aaaaaaaaaaaa", fun _ => none⟩

/-- Configuration restricted to the domain of `https://a.com`. -/
def cfgDom : Config :=
  ⟨"https://a.com", 500, true, 0, 0, false,
   fun _ => "aaaaaaaaaaaa", fun _ => none⟩

/-- Configuration with Pillow available and 100-pixel minimums. -/
def cfgMin : Config :=
  ⟨"https://site.test/page", 500, false, 100, 100, true,
   fun _ => "aaaaaaaaaaaa", fun _ => none⟩

/-! Generic lemmas about the trace of one `step` and of the whole loop. -/

/-- Every run of `step` has one of five shapes: error, status skip,
content-type skip, dimension skip (the first and fourth followed by a
sleep, the other two not), or a save of `hash_to_name(url, count+1, ext)`
followed by a sleep. -/
theorem step_shape (cfg : Config) (u : String) (o : Outcome) (c : Nat) :
    step cfg u o c = ([.fetchTry u, .errorSkip u, .sleep], c) ∨
    (∃ s, step cfg u o c = ([.fetchTry u, .skipStatus u s], c)) ∨
    step cfg u o c = ([.fetchTry u, .skipCtype u], c) ∨
    step cfg u o c = ([.fetchTry u, .skipSize u, .sleep], c) ∨
    (∃ e, step cfg u o c =
      ([.fetchTry u, .saveFile u (hash_to_name cfg.h12 u (c + 1) e),
        .sleep], c + 1)) := by
  cases o with
  | raise => exact Or.inl rfl
  | resp s ct d =>
    simp only [step]
    split_ifs with h1 h2 h3
    · exact Or.inr (Or.inl ⟨s, rfl⟩)
    · exact Or.inr (Or.inr (Or.inl rfl))
    · exact Or.inr (Or.inr (Or.inr (Or.inl rfl)))
    · exact Or.inr (Or.inr (Or.inr (Or.inr ⟨_, rfl⟩)))

/-- Splitting the saved-file list over trace concatenation. -/
theorem savedFiles_append (a b : List Event) :
    savedFiles (a ++ b) = savedFiles a ++ savedFiles b := by
  simp [savedFiles, List.filterMap_append]

/-- Splitting the save count over trace concatenation. -/
theorem countSaves_append (a b : List Event) :
    countSaves (a ++ b) = countSaves a + countSaves b := by
  simp [countSaves, savedFiles_append]

/-- One step increments the count by exactly its number of saves, which
is at most one. -/
theorem step_count (cfg : Config) (u : String) (o : Outcome) (c : Nat) :
    (step cfg u o c).2 = c + countSaves (step cfg u o c).1 ∧
    countSaves (step cfg u o c).1 ≤ 1 := by
  rcases step_shape cfg u o c with h | ⟨s, h⟩ | h | h | ⟨e, h⟩ <;> rw [h] <;>
    exact ⟨rfl, by simp [countSaves, savedFiles]⟩

/-- The loop never saves more than the headroom remaining under the cap. -/
theorem downloadLoop_count_le (cfg : Config) :
    ∀ (inputs : List (String × Outcome)) (c : Nat),
      countSaves (downloadLoop cfg inputs c) ≤ cfg.maxImages - c := by
  intro inputs
  induction inputs with
  | nil => intro c; simp [downloadLoop, countSaves, savedFiles]
  | cons p rest ih =>
    intro c
    obtain ⟨u, o⟩ := p
    by_cases hc : cfg.maxImages ≤ c
    · simp [downloadLoop, hc, countSaves, savedFiles]
    · by_cases hd : (cfg.onlySameDomain && !same_domain cfg.baseUrl u) = true
      · have h := ih c
        simp only [downloadLoop, if_neg hc, hd, if_true]
        simpa [countSaves, savedFiles] using h
      · simp only [downloadLoop, if_neg hc, if_neg hd]
        obtain ⟨he, hle⟩ := step_count cfg u o c
        rw [countSaves_append, he]
        have h9 := ih (c + countSaves (step cfg u o c).1)
        omega

/-- Every fetch in a loop trace happens while the saved count is below
the cap. -/
theorem downloadLoop_cap (cfg : Config) :
    ∀ (inputs : List (String × Outcome)) (c : Nat),
      capRespected cfg.maxImages (downloadLoop cfg inputs c) c = true := by
  intro inputs
  induction inputs with
  | nil => intro c; rfl
  | cons p rest ih =>
    intro c
    obtain ⟨u, o⟩ := p
    by_cases hc : cfg.maxImages ≤ c
    · simp [downloadLoop, hc, capRespected]
    · by_cases hd : (cfg.onlySameDomain && !same_domain cfg.baseUrl u) = true
      · simp only [downloadLoop, if_neg hc, hd, if_true]
        simpa [capRespected] using ih c
      · simp only [downloadLoop, if_neg hc, if_neg hd]
        have hlt : c < cfg.maxImages := Nat.lt_of_not_le hc
        rcases step_shape cfg u o c with h | ⟨s, h⟩ | h | h | ⟨e, h⟩ <;>
          rw [h] <;>
          simp [capRespected, hlt, ih c, ih (c + 1)]

/-! Arithmetic of the zero-padded sequence index inside a filename. -/

/-- Facts about the ten digit characters, by computation. -/
theorem digitChar10_facts :
    ∀ d, d < 10 → (digitChar10 d).toNat - 48 = d ∧ (digitChar10 d != '_') = true := by
  decide

/-- The fuelled digit expansion evaluates back to its input. -/
theorem valLE_natToDigitsAux :
    ∀ (fuel n : Nat), n ≤ fuel → valLE (natToDigitsAux fuel n) = n := by
  intro fuel
  induction fuel with
  | zero =>
    intro n hn
    have : n = 0 := Nat.le_zero.mp hn
    subst this
    rfl
  | succ f ih =>
    intro n hn
    match n with
    | 0 => rfl
    | m + 1 =>
      have hdiv : (m + 1) / 10 ≤ f := by
        have : (m + 1) / 10 < m + 1 := Nat.div_lt_self (Nat.succ_pos m) (by norm_num)
        omega
      have hmod : (m + 1) % 10 < 10 := Nat.mod_lt _ (by norm_num)
      have hd := (digitChar10_facts _ hmod).1
      simp only [natToDigitsAux, valLE, ih _ hdiv, hd]
      omega

/-- Folding the most-significant-first digits relates to `valLE`. -/
theorem foldl_digits_reverse :
    ∀ (l : List Char) (acc : Nat),
      List.foldl (fun a c => 10 * a + (c.toNat - 48)) acc l.reverse
        = acc * 10 ^ l.length + valLE l := by
  intro l
  induction l with
  | nil => intro acc; simp [valLE]
  | cons c t ih =>
    intro acc
    simp only [List.reverse_cons, List.foldl_append, List.foldl_cons,
      List.foldl_nil, ih, valLE, List.length_cons]
    ring

/-- The decimal digit string of `n` parses back to `n`. -/
theorem digitsVal_natToDecList (n : Nat) :
    digitsVal (natToDecList n) = n := by
  by_cases h : n = 0
  · subst h; rfl
  · simp only [natToDecList, if_neg h, digitsVal, foldl_digits_reverse,
      valLE_natToDigitsAux n n le_rfl]
    simp

/-- A leading zero does not change the parsed value. -/
theorem digitsVal_cons_zero (l : List Char) :
    digitsVal ('0' :: l) = digitsVal l := rfl

/-- Leading zero padding does not change the parsed value. -/
theorem digitsVal_replicate_append (k : Nat) (l : List Char) :
    digitsVal (List.replicate k '0' ++ l) = digitsVal l := by
  induction k with
  | zero => simp
  | succ m ih =>
    simpa [List.replicate_succ, digitsVal_cons_zero] using ih

/-- The zero-padded index string parses back to the index. -/
theorem digitsVal_pyFmt04List (n : Nat) :
    digitsVal (pyFmt04List n) = n := by
  simp [pyFmt04List, digitsVal_replicate_append, digitsVal_natToDecList]

/-- No character of the fuelled digit expansion is an underscore. -/
theorem natToDigitsAux_ne_underscore :
    ∀ (fuel n : Nat), ∀ c ∈ natToDigitsAux fuel n, (c != '_') = true := by
  intro fuel
  induction fuel with
  | zero => intro n c hc; simp [natToDigitsAux] at hc
  | succ f ih =>
    intro n c hc
    match n with
    | 0 => simp [natToDigitsAux] at hc
    | m + 1 =>
      simp only [natToDigitsAux, List.mem_cons] at hc
      rcases hc with hc | hc
      · subst hc
        exact (digitChar10_facts _ (Nat.mod_lt _ (by norm_num))).2
      · exact ih _ c hc

/-- No character of the zero-padded index string is an underscore. -/
theorem pyFmt04List_ne_underscore (n : Nat) :
    ∀ c ∈ pyFmt04List n, (c != '_') = true := by
  intro c hc
  simp only [pyFmt04List, List.mem_append] at hc
  rcases hc with hc | hc
  · have := List.eq_of_mem_replicate hc
    subst this
    rfl
  · by_cases h : n = 0
    · subst h
      simp [natToDecList] at hc
      subst hc
      rfl
    · simp only [natToDecList, if_neg h, List.mem_reverse] at hc
      exact natToDigitsAux_ne_underscore n n c hc

/-- Taking characters up to the first underscore recovers an underscore-free
block placed before an underscore. -/
theorem takeWhile_until_underscore :
    ∀ (l1 l2 : List Char), (∀ c ∈ l1, (c != '_') = true) →
      (l1 ++ '_' :: l2).takeWhile (· != '_') = l1 := by
  intro l1
  induction l1 with
  | nil =>
    intro l2 _
    simp [List.takeWhile]
  | cons c t ih =>
    intro l2 h
    have hc := h c (List.mem_cons_self c t)
    simp only [List.cons_append, List.takeWhile, hc]
    simpa using ih l2 (fun x hx => h x (List.mem_cons_of_mem c hx))

/-- The sequence index parsed back out of a generated filename is the
index that went in, whatever the digest and the extension are. -/
theorem fileIdx_hash_to_name (h12 : String → String) (u : String)
    (idx : Nat) (ext : String) :
    fileIdx (hash_to_name h12 u idx ext) = idx := by
  have hmk : ∀ l : List Char, (String.mk l).data = l := fun _ => rfl
  have hund : ("_" : String).data = ['_'] := rfl
  have hdata : (hash_to_name h12 u idx ext).data
      = pyFmt04List idx ++ '_' :: ((h12 u).data ++ ext.data) := by
    simp [hash_to_name, pyFmt04, String.data_append, hmk, hund]
  simp only [fileIdx, hdata,
    takeWhile_until_underscore _ _ (pyFmt04List_ne_underscore idx),
    digitsVal_pyFmt04List]

/-- Along any run of the loop, the indices encoded in the saved
filenames, prefixed with the starting count, are strictly increasing. -/
theorem downloadLoop_fileIdx_pairwise (cfg : Config) :
    ∀ (inputs : List (String × Outcome)) (c : Nat),
      List.Pairwise (· < ·)
        (c :: (savedFiles (downloadLoop cfg inputs c)).map fileIdx) := by
  intro inputs
  induction inputs with
  | nil => intro c; simp [downloadLoop, savedFiles]
  | cons p rest ih =>
    intro c
    obtain ⟨u, o⟩ := p
    by_cases hc : cfg.maxImages ≤ c
    · simp [downloadLoop, hc, savedFiles]
    · by_cases hd : (cfg.onlySameDomain && !same_domain cfg.baseUrl u) = true
      · simp only [downloadLoop, if_neg hc, hd, if_true]
        simpa [savedFiles] using ih c
      · simp only [downloadLoop, if_neg hc, if_neg hd]
        rcases step_shape cfg u o c with h | ⟨s, h⟩ | h | h | ⟨e, h⟩ <;>
          rw [h] <;>
          simp only [savedFiles_append] <;>
          [exact (by simpa [savedFiles] using ih c);
           exact (by simpa [savedFiles] using ih c);
           exact (by simpa [savedFiles] using ih c);
           exact (by simpa [savedFiles] using ih c);
           skip]
        have hih := ih (c + 1)
        simp only [savedFiles, List.filterMap, List.map, fileIdx_hash_to_name]
        simp only [List.pairwise_cons] at hih ⊢
        obtain ⟨hall, hrest⟩ := hih
        refine ⟨?_, hall, hrest⟩
        intro b hb
        simp only [List.mem_cons] at hb
        rcases hb with hb | hb
        · omega
        · have := hall b hb
          omega

/-! Lemmas about the extraction model. -/

/-- An `img` element's populated `src` value is among its candidates. -/
theorem mem_imgCandidates_src (e : Element) (v : String)
    (hsrc : e.get "src" = some v) (hne : v ≠ "") : v ∈ imgCandidates e := by
  simp only [imgCandidates, imgAttrNames, List.mem_append]
  left
  simp [List.filterMap, hsrc, hne]

/-- The resolved `src` of any `img` element of the list is among the
resolved `img` references. -/
theorem mem_imgRefs_of_src (base : String) :
    ∀ (els : List Element) (e : Element) (v : String),
      e ∈ els → e.tag = "img" → e.get "src" = some v → v ≠ "" →
      urljoin base v ∈ imgRefs base els := by
  intro els
  induction els with
  | nil => intro e v h; simp at h
  | cons a rest ih =>
    intro e v hmem htag hsrc hne
    simp only [imgRefs, List.mem_append]
    rcases List.mem_cons.mp hmem with h | h
    · subst h
      left
      have hb : (e.tag == "img") = true := by simp [htag]
      rw [if_pos hb]
      exact List.mem_map_of_mem _ (mem_imgCandidates_src e v hsrc hne)
    · right
      exact ih e v h htag hsrc hne

/-- An enumeration contains every member of its pool. -/
theorem mem_of_isEnumOf (out pool : List String)
    (h : isEnumOf out pool = true) (x : String) (hx : x ∈ pool) :
    x ∈ out := by
  simp only [isEnumOf, Bool.and_eq_true, List.all_eq_true,
    decide_eq_true_eq] at h
  exact h.2 x hx

/-- An enumeration of the empty pool is empty. -/
theorem isEnumOf_nil (out : List String) (h : isEnumOf out [] = true) :
    out = [] := by
  cases out with
  | nil => rfl
  | cons x rest =>
    simp only [isEnumOf, Bool.and_eq_true, List.all_eq_true,
      decide_eq_true_eq] at h
    exact absurd (h.1.2 x (List.mem_cons_self x rest)) (List.not_mem_nil x)

/-! The ten claims. -/

/-- Claim C1, code bug: `extract_image_urls` is claimed to return
candidates in first-seen discovery order, and its final
`list(dict.fromkeys(filtered))  # preserve order, dedupe` documents that
intent — but the URLs were first accumulated in a Python `set`, whose
iteration order is hash-based (and randomized across processes), not
discovery order.  On the §8 scenario the discovery order is `disc8`, yet
its reversal is an equally admissible result of the code. -/
theorem C1_extraction_order_bug :
    dedupFirst (discoveredUrls m8 base8) = disc8 ∧
    extract_image_urls_result m8 base8 disc8.reverse = true ∧
    disc8.reverse ≠ disc8 :=
  ⟨rfl, rfl, by decide⟩

/-- Claim C2: with a configured maximum of at least 1, the loop saves at
most `maxImages` files, and every fetch in the trace happens while the
saved count is still below the maximum — once the cap is reached no
further candidate is fetched. -/
theorem C2_cap_enforcement (cfg : Config) (inputs : List (String × Outcome))
    (hmax : 1 ≤ cfg.maxImages) :
    countSaves (download_images cfg inputs) ≤ cfg.maxImages ∧
    capRespected cfg.maxImages (download_images cfg inputs) 0 = true := by
  refine ⟨?_, downloadLoop_cap cfg inputs 0⟩
  have h := downloadLoop_count_le cfg inputs 0
  simpa [download_images] using h

/-- Witness for C2: ten downloadable candidates under a cap of 3 give
exactly three saves with every fetch made below the cap. -/
theorem C2_cap_enforcement_witness :
    (countSaves (download_images cfgC2 inputsC2) ≤ cfgC2.maxImages ∧
      capRespected cfgC2.maxImages (download_images cfgC2 inputsC2) 0 = true) ∧
    countSaves (download_images cfgC2 inputsC2) = 3 :=
  ⟨C2_cap_enforcement cfgC2 inputsC2 (by decide), by decide⟩

/-- Claim C3 counterexample: with Pillow available, a status-200 response
whose `Content-Type` is `text/html` is not skipped — its body is saved
and the count becomes 1, refuting "skipped regardless of whether Pillow
is available". -/
theorem C3_counterexample :
    cfgPil.pilAvailable = true ∧
    content_type_is_image "text/html" = false ∧
    step cfgPil "https://site.test/x" (Outcome.resp 200 "text/html" none) 0
      = ([Event.fetchTry "https://site.test/x",
          Event.saveFile "https://site.test/x" "0001_aaaaaaaaaaaa.jpg",
          Event.sleep], 1) :=
  ⟨rfl, rfl, by decide⟩

/-- Claim C3 as amended: a fetched response with status < 400 and a
non-image `Content-Type` is skipped — nothing written, count unchanged —
exactly when Pillow is unavailable; with Pillow available the candidate
falls through toward saving. -/
theorem C3_content_type_skip (cfg : Config) (u : String) (s : Nat)
    (ct : String) (d : Option (Nat × Nat)) (c : Nat)
    (hpil : cfg.pilAvailable = false) (hs : s < 400)
    (hct : content_type_is_image ct = false) :
    step cfg u (Outcome.resp s ct d) c
      = ([Event.fetchTry u, Event.skipCtype u], c) := by
  simp only [step]
  rw [if_neg (by omega), if_pos (by simp [hct, hpil])]

/-- Witness for the amended C3 at a concrete non-image response. -/
theorem C3_content_type_skip_witness :
    step cfgNoPil "https://site.test/x" (Outcome.resp 200 "text/html" none) 0
      = ([Event.fetchTry "https://site.test/x",
          Event.skipCtype "https://site.test/x"], 0) :=
  C3_content_type_skip cfgNoPil "https://site.test/x" 200 "text/html" none 0
    rfl (by decide) rfl

/-- Claim C4 counterexample: a fetched candidate rejected for HTTP 404,
and one rejected for a non-image `Content-Type`, are both followed by no
sleep at all, refuting "the delay is observed after every candidate for
which a fetch was attempted". -/
theorem C4_counterexample :
    (Event.fetchTry "https://site.test/a.png"
        ∈ (step cfgNoPil "https://site.test/a.png"
            (Outcome.resp 404 "" none) 0).1 ∧
      Event.sleep ∉ (step cfgNoPil "https://site.test/a.png"
            (Outcome.resp 404 "" none) 0).1) ∧
    (Event.fetchTry "https://site.test/b"
        ∈ (step cfgNoPil "https://site.test/b"
            (Outcome.resp 200 "text/html" none) 0).1 ∧
      Event.sleep ∉ (step cfgNoPil "https://site.test/b"
            (Outcome.resp 200 "text/html" none) 0).1) := by
  decide

/-- Claim C4 as amended: the delay is observed after a candidate exactly
when its fetch raised, or it was saved, or it was rejected by the
dimension filter; candidates rejected for HTTP status or content type
get no delay, and a domain-mismatch skip bypasses the fetch entirely
with no delay. -/
theorem C4_delay_after_fetch (cfg : Config) (u : String) (o : Outcome)
    (c : Nat) (rest : List (String × Outcome)) :
    (Event.sleep ∈ (step cfg u o c).1 ↔
      (o = Outcome.raise ∨ containsSave (step cfg u o c).1 = true ∨
        Event.skipSize u ∈ (step cfg u o c).1)) ∧
    (cfg.onlySameDomain = true → same_domain cfg.baseUrl u = false →
      c < cfg.maxImages →
      downloadLoop cfg ((u, o) :: rest) c
        = Event.skipDomain u :: downloadLoop cfg rest c) := by
  constructor
  · cases o with
    | raise => simp [step, containsSave, savedFiles]
    | resp s ct d =>
      simp only [step]
      split_ifs with h1 h2 h3 <;> simp [containsSave, savedFiles]
  · intro h1 h2 hc
    simp [downloadLoop, Nat.not_le.mpr hc, h1, h2]

/-- Witness for the amended C4: a 404 response sleeps iff it saved,
errored or was size-rejected (it did none), and a domain-mismatched
candidate is skipped without fetch or sleep. -/
theorem C4_delay_after_fetch_witness :
    (Event.sleep ∈ (step cfgDom "https://b.com/p.png"
        (Outcome.resp 404 "" none) 0).1 ↔
      (Outcome.resp 404 "" none = Outcome.raise ∨
        containsSave (step cfgDom "https://b.com/p.png"
          (Outcome.resp 404 "" none) 0).1 = true ∨
        Event.skipSize "https://b.com/p.png"
          ∈ (step cfgDom "https://b.com/p.png"
              (Outcome.resp 404 "" none) 0).1)) ∧
    downloadLoop cfgDom [("https://b.com/p.png", Outcome.resp 404 "" none)] 0
      = Event.skipDomain "https://b.com/p.png" :: downloadLoop cfgDom [] 0 :=
  ⟨(C4_delay_after_fetch cfgDom "https://b.com/p.png"
      (Outcome.resp 404 "" none) 0 []).1,
   (C4_delay_after_fetch cfgDom "https://b.com/p.png"
      (Outcome.resp 404 "" none) 0 []).2 rfl (by decide) (by decide)⟩

/-- Claim C5 counterexample: with a page that yields zero candidates, the
CLI `main` does not abort — it runs the (empty) download loop and
reports a normal completion with zero saved images. -/
theorem C5_counterexample :
    extract_image_urls_result mEmpty cfgNoPil.baseUrl [] = true ∧
    mainModel cfgNoPil true true (some mEmpty) [] (fun _ => Outcome.raise)
      = CliResult.completed 0 0 :=
  ⟨rfl, rfl⟩

/-- Claim C5 as amended: on zero extracted candidates the Streamlit start
handler stops with a warning before the download phase, while the CLI
`main` proceeds and completes normally with zero saved images. -/
theorem C5_zero_candidates (cfg : Config) (robotsOk : Bool) (url : String)
    (m : Markup) (out : List String) (env : String → Outcome)
    (hurl : url ≠ "")
    (hout : extract_image_urls_result m cfg.baseUrl out = true)
    (hnone : discoveredUrls m cfg.baseUrl = []) :
    mainModel cfg robotsOk true (some m) out env = CliResult.completed 0 0 ∧
    appStartModel url robotsOk true (some m) out
      = AppResult.stoppedNoCandidates := by
  have hnil : out = [] := by
    apply isEnumOf_nil
    simp only [extract_image_urls_result, Bool.and_eq_true] at hout
    rw [hnone] at hout
    exact hout.2
  subst hnil
  constructor
  · simp [mainModel, download_images, downloadLoop, countSaves, savedFiles]
  · simp [appStartModel, hurl]

/-- Witness for the amended C5 on a concrete candidate-free page. -/
theorem C5_zero_candidates_witness :
    mainModel cfgNoPil true true (some mEmpty) [] (fun _ => Outcome.raise)
        = CliResult.completed 0 0 ∧
    appStartModel "https://site.test/page" true true (some mEmpty) []
        = AppResult.stoppedNoCandidates :=
  C5_zero_candidates cfgNoPil true "https://site.test/page" mEmpty []
    (fun _ => Outcome.raise) (by decide) rfl rfl

/-- Claim C6, code bug: the compiled inline-style pattern
`r'url\\(([^)]+)\\)'` demands literal backslashes, so a plain
`url(https://a.test/bg.png)` in the raw markup is never matched: the call
returns without crashing, the reference is never collected, and the only
admissible output for this page is empty — the resolved reference is in
no output. -/
theorem C6_style_url_never_extracted :
    extractCrashes m6 = false ∧
    urljoin base8 "https://a.test/bg.png" = "https://a.test/bg.png" ∧
    discoveredUrls m6 base8 = [] ∧
    extract_image_urls_result m6 base8 [] = true :=
  ⟨rfl, rfl, rfl, rfl⟩

/-- Claim C7 counterexample: an `img` whose `src` is a data URI puts that
data URI — unchanged by resolution — into the extraction output, so an
output element can begin with `data:`. -/
theorem C7_counterexample :
    extract_image_urls_result m7 base8 [dataURI] = true ∧
    pyStartsWith (pyLower dataURI) "data:" = true :=
  ⟨rfl, rfl⟩

/-- Claim C7 as amended: only the inline-style rule excludes data-URI
values; a populated `img` `src` attribute — data URI or not — always
reaches the output after URL resolution. -/
theorem C7_img_src_data_uri (m : Markup) (base : String)
    (out : List String) (e : Element) (v : String)
    (hout : extract_image_urls_result m base out = true)
    (hmem : e ∈ m.elements) (htag : e.tag = "img")
    (hsrc : e.get "src" = some v) (hne : v ≠ "") :
    urljoin base v ∈ out := by
  have hpool : urljoin base v ∈ discoveredUrls m base := by
    simp only [discoveredUrls, List.mem_append]
    exact Or.inl (mem_imgRefs_of_src base m.elements e v hmem htag hsrc hne)
  simp only [extract_image_urls_result, Bool.and_eq_true] at hout
  exact mem_of_isEnumOf out _ hout.2 _ hpool

/-- Witness for the amended C7: the concrete data URI is in the unique
admissible output for `m7`. -/
theorem C7_img_src_data_uri_witness :
    urljoin base8 dataURI ∈ [dataURI] :=
  C7_img_src_data_uri m7 base8 [dataURI] ⟨"img", [("src", dataURI)]⟩ dataURI
    rfl (by decide) rfl rfl (by decide)

/-- Claim C8: over any run, the sequence indices encoded in the saved
filenames strictly increase save by save, and the saved filenames are
pairwise distinct as strings — for every digest function, hence even
when the 12-character hashes or the extensions coincide. -/
theorem C8_saved_filenames_distinct (cfg : Config)
    (inputs : List (String × Outcome)) :
    List.Pairwise (· < ·)
      ((savedFiles (download_images cfg inputs)).map fileIdx) ∧
    (savedFiles (download_images cfg inputs)).Nodup := by
  have h := downloadLoop_fileIdx_pairwise cfg inputs 0
  rw [List.pairwise_cons] at h
  refine ⟨h.2, ?_⟩
  have hne : ((savedFiles (download_images cfg inputs)).map fileIdx).Nodup :=
    h.2.imp (fun hlt => Nat.ne_of_lt hlt)
  exact List.Nodup.of_map fileIdx hne

/-- Claim C9: with a nonzero minimum configured and Pillow available, a
fetched image response whose body does not decode is not rejected by the
dimension filter — the decode failure is swallowed and the candidate is
saved. -/
theorem C9_decode_failure_fail_open (cfg : Config) (u : String) (s : Nat)
    (ct : String) (c : Nat)
    (hpil : cfg.pilAvailable = true)
    (hmin : cfg.minW ≠ 0 ∨ cfg.minH ≠ 0)
    (hs : s < 400)
    (hct : content_type_is_image ct = true) :
    step cfg u (Outcome.resp s ct none) c
      = ([Event.fetchTry u,
          Event.saveFile u (hash_to_name cfg.h12 u (c + 1)
            (infer_extension cfg.guessExt ct u)),
          Event.sleep], c + 1) := by
  simp only [step]
  rw [if_neg (by omega), if_neg (by simp [hct]), if_neg (by simp [dimRejects])]

/-- Witness for C9: a concrete undecodable image body under 100-pixel
minimums is saved. -/
theorem C9_decode_failure_fail_open_witness :
    (step cfgMin "https://site.test/x.png"
        (Outcome.resp 200 "image/png" none) 0
      = ([Event.fetchTry "https://site.test/x.png",
          Event.saveFile "https://site.test/x.png"
            (hash_to_name cfgMin.h12 "https://site.test/x.png" 1
              (infer_extension cfgMin.guessExt "image/png"
                "https://site.test/x.png")),
          Event.sleep], 1)) ∧
    hash_to_name cfgMin.h12 "https://site.test/x.png" 1
        (infer_extension cfgMin.guessExt "image/png"
          "https://site.test/x.png")
      = "0001_aaaaaaaaaaaa.png" :=
  ⟨C9_decode_failure_fail_open cfgMin "https://site.test/x.png" 200
      "image/png" 0 rfl (Or.inl (by decide)) (by decide) rfl,
   by decide⟩

/-- Claim C10: `same_domain` compares full netlocs — it holds exactly
when the candidate netloc equals the base netloc or ends with a dot
followed by it — so identical hosts with different explicit ports are
not same-domain. -/
theorem C10_same_domain_netloc :
    (∀ b t, same_domain b t = true ↔
      (urlparseNetloc t = urlparseNetloc b ∨
        pyEndsWith (urlparseNetloc t) ("." ++ urlparseNetloc b) = true)) ∧
    same_domain "https://a.com" "https://a.com:8080/p.png" = false ∧
    urlparseNetloc "https://a.com" = "a.com" ∧
    urlparseNetloc "https://a.com:8080/p.png" = "a.com:8080" := by
  refine ⟨fun b t => ?_, rfl, rfl, rfl⟩
  have h : same_domain b t
      = ((urlparseNetloc b == urlparseNetloc t)
          || pyEndsWith (urlparseNetloc t) ("." ++ urlparseNetloc b)) := rfl
  rw [h, Bool.or_eq_true, beq_iff_eq]
  constructor
  · rintro (h1 | h1)
    · exact Or.inl h1.symm
    · exact Or.inr h1
  · rintro (h1 | h1)
    · exact Or.inl h1.symm
    · exact Or.inr h1

end ImageScraper

